import Mathlib

/-!
Verification development for the dispatch/session/continuation pipeline of
`src/packages/bottender/src/bot/Bot.ts`.

The embedding is shallow: every JavaScript function of the source that the
claims depend on is translated into an executable Lean definition.  External
collaborators (the platform connector, the user-supplied dialog handler, the
error handler and the plugins) are modelled as function-valued parameters, so
the theorems quantify over every possible collaborator behaviour.  Cooperative
asynchronous execution is modelled deterministically: the per-event pipeline of
the dispatcher is data-independent between events, so the sequential order used
here produces the same observable stores, traces and return values as any
interleaving (the one place where interleaving genuinely matters, the
initialization latch of `initSessionStore`, gets its own explicit interleaving
model further below).
-/

/-! ## JavaScript value model -/

/-- Model of the JavaScript values that can sit in the accumulated response
slot of a context: `undefined`, `null`, strings, numbers and plain objects. -/
inductive JsValue : Type where
  | undef : JsValue
  | nullv : JsValue
  | str : String → JsValue
  | num : Int → JsValue
  | obj : List (String × String) → JsValue
deriving Repr, DecidableEq

/-- JavaScript truthiness of a `JsValue` (`undefined`, `null`, `""` and `0`
are falsy; every object, even empty, is truthy). -/
def JsValue.jsTruthy : JsValue → Bool
  | .undef => false
  | .nullv => false
  | .str s => s ≠ ""
  | .num n => n ≠ 0
  | .obj _ => true

/-- JavaScript `typeof v === "object"` for the modelled values (`null` is of
type object in JavaScript). -/
def JsValue.jsIsObject : JsValue → Bool
  | .obj _ => true
  | .nullv => true
  | _ => false

/-- JavaScript truthiness of an optional string (`undefined` and `""` are
falsy), used for `session.id || sessionId`-style defaulting and for the
`if (!inputBody)` admission check. -/
def jsFalsy : Option String → Bool
  | none => true
  | some s => s = ""

/-- JavaScript `a || b` on an optional string: the default `b` is used when
`a` is absent or the empty string. -/
def jsOrStr (a : Option String) (b : String) : String :=
  match a with
  | none => b
  | some s => if s = "" then b else s

/-! ## Sessions

`Session` models the durable per-conversation record of Bot.ts.  The source
freezes the `id` and `platform` properties with
`Object.defineProperty(session, _, { configurable: false, writable: false })`;
the `idFrozen` / `platformFrozen` flags record that.  A later assignment to a
frozen property is a no-op (in sloppy mode) or a `TypeError` (in strict mode);
either way the stored value never changes, which is what `applyOp` models. -/

/-- Associative-list update used for the session store and for the arbitrary
key/value state of a session: replaces the binding of `k` or appends it. -/
def assocSet {α : Type} : List (String × α) → String → α → List (String × α)
  | [], k, v => [(k, v)]
  | (k', v') :: rest, k, v =>
      if k' = k then (k, v) :: rest else (k', v') :: assocSet rest k v

/-- Durable per-conversation record (`Session` of the source), together with
the writability state of its `id` and `platform` properties. -/
structure Session : Type where
  id : Option String := none
  platform : Option String := none
  idFrozen : Bool := false
  platformFrozen : Bool := false
  lastActivity : Option Nat := none
  data : List (String × String) := []
deriving Repr, DecidableEq

/-- One property write performed on a session object by the connector
(`updateSession`), a plugin, the dialog handler or the error handler. -/
inductive SessionOp : Type where
  | setId : String → SessionOp
  | setPlatform : String → SessionOp
  | setLastActivity : Nat → SessionOp
  | setData : String → String → SessionOp
deriving Repr, DecidableEq

/-- Apply one property write, honouring the frozen (non-writable) state of the
`id` and `platform` properties: a write to a frozen property never changes the
stored value. -/
def Session.applyOp (s : Session) : SessionOp → Session
  | .setId v => if s.idFrozen then s else { s with id := some v }
  | .setPlatform v => if s.platformFrozen then s else { s with platform := some v }
  | .setLastActivity t => { s with lastActivity := some t }
  | .setData k v => { s with data := assocSet s.data k v }

/-- Apply a sequence of property writes in order. -/
def Session.applyOps (s : Session) (ops : List SessionOp) : Session :=
  ops.foldl Session.applyOp s

/-- Session normalization of Bot.ts lines 216–230: fix `id` with
`Object.defineProperty` to `session.id || sessionId` and freeze it, default
`platform` to the connector platform when falsy (a plain assignment, hence
honouring a pre-existing frozen state), then freeze `platform` at its current
value.  Redefinition of an already frozen `id` happens in the source only when
an in-memory store hands back the very same live object, in which case
`session.id || sessionId` equals the frozen value and the redefinition is a
no-op; the model therefore writes the same value there as the source does. -/
def normalizeSession (platform sessionId : String) (s : Session) : Session :=
  let s1 : Session := { s with id := some (jsOrStr s.id sessionId), idFrozen := true }
  let s2 : Session := if jsFalsy s1.platform then s1.applyOp (.setPlatform platform) else s1
  { s2 with platformFrozen := true }

/-! ## Session store -/

/-- Contents of the session store, keyed by session id. -/
abbrev Store : Type := List (String × Session)

/-- Store read (`this._sessions.read(sessionId)`). -/
def storeLookup (st : Store) (k : String) : Option Session :=
  st.lookup k

/-- Store write (`this._sessions.write(id, session)`). -/
def storeWrite (st : Store) (k : String) (v : Session) : Store :=
  assocSet st k v

/-! ## Events, contexts, connector and call traces -/

/-- A raw inbound webhook body (opaque to the dispatcher). -/
abbrev Body : Type := String

/-- One platform-native event decoded from a body. -/
abbrev Event : Type := String

/-- Properties handed to an action (`Props`, a plain object). -/
abbrev Props : Type := List (String × String)

/-- Argument shape of `getUniqueSessionKey` / `updateSession`: either the
whole normalized body or one individual event. -/
abbrev BodyOrEvent : Type := Sum Body Event

/-- Optional request metadata (`requestContext`, opaque here). -/
abbrev ReqCtx : Type := Option String

/-- One observable call performed by the request handler on the session store,
the connector or the error bus, in program order. -/
inductive CallRec : Type where
  | storeInitCall : CallRec
  | storeReadCall : String → CallRec
  | storeWriteCall : String → Session → CallRec
  | mapEventsCall : Body → CallRec
  | getKeyCall : BodyOrEvent → CallRec
  | updSessionCall : BodyOrEvent → CallRec
  | createCtxCall : Event → CallRec
  | emitErrorCall : String → CallRec
deriving Repr, DecidableEq

/-- Whether a trace entry is a session-store write. -/
def CallRec.isStoreWrite : CallRec → Bool
  | .storeWriteCall _ _ => true
  | _ => false

/-- Per-event execution environment (`Context` of the source), restricted to
the fields the dispatcher itself reads or writes: the event, the (optional)
session, the accumulated response, the session-written flag, and the optional
`handlerDidEnd` hook (modelled by its observable outcome: `none` when the
context exposes no hook, `some e` when it does, `e` being the error it throws
if any). -/
structure Context : Type where
  event : Event
  session : Option Session := none
  response : JsValue := .undef
  isSessionWritten : Bool := false
  didEnd : Option (Option String) := none
deriving Repr, DecidableEq

/-- External platform connector (§6 of the spec): `platform`,
`mapRequestToEvents`, `getUniqueSessionKey`, `updateSession` (modelled by the
sequence of property writes it performs on the session it is given, which may
depend on that session and on the body-or-event argument), and the
`handlerDidEnd` hook it installs on the contexts it builds. -/
structure Connector : Type where
  platform : String
  mapRequestToEvents : Body → List Event
  getUniqueSessionKey : BodyOrEvent → ReqCtx → Option String
  updateSessionOps : Session → BodyOrEvent → List SessionOp
  didEndHook : Event → Option (Option String) := fun _ => none

/-- Context construction (`this._connector.createContext({...})`, Bot.ts lines
239–245).  The initial state and the emitter are opaque to every claim and are
not carried in the model. -/
def createContext (conn : Connector) (event : Event) (session : Option Session) :
    Context :=
  { event := event, session := session, response := .undef,
    isSessionWritten := false, didEnd := conn.didEndHook event }

/-- Session resolution and context construction for one event (Bot.ts lines
195–246): ask the connector for a session key — passing the whole body when
the payload mapped to exactly one event, the individual event otherwise —,
compose the session id, read the store, default to an empty record, normalize,
let the connector update the session, and build the context.  Returns the
context together with the trace of store/connector calls. -/
def resolveEvent (conn : Connector) (body : Body) (numEvents : Nat)
    (rc : ReqCtx) (store : Store) (event : Event) : Context × List CallRec :=
  let arg : BodyOrEvent := if numEvents = 1 then .inl body else .inr event
  match conn.getUniqueSessionKey arg rc with
  | none =>
      (createContext conn event none, [.getKeyCall arg, .createCtxCall event])
  | some key =>
      let sessionId := conn.platform ++ ":" ++ key
      let stored := (storeLookup store sessionId).getD {}
      let session1 := normalizeSession conn.platform sessionId stored
      let session2 := session1.applyOps (conn.updateSessionOps session1 arg)
      (createContext conn event (some session2),
        [.getKeyCall arg, .storeReadCall sessionId, .updSessionCall arg,
          .createCtxCall event])

/-- Session/context resolution for every event of the payload (the `pMap`
fan-out of Bot.ts lines 193–250).  The concurrency bound of 5 only throttles
in-flight store reads; each resolution depends only on its own event and the
shared read-only store, so the sequential order used here yields the same
contexts and the same multiset of calls as any bounded interleaving. -/
def resolveAll (conn : Connector) (body : Body) (numEvents : Nat) (rc : ReqCtx)
    (store : Store) : List Event → List Context × List CallRec
  | [] => ([], [])
  | e :: es =>
      let (c, tr) := resolveEvent conn body numEvents rc store e
      let (cs, trs) := resolveAll conn body numEvents rc store es
      (c :: cs, tr ++ trs)

/-! ## Plugins, handler tasks, persistence -/

/-- A plugin (`this._plugins`): invoked with a context, may mutate it and may
throw (the `Option String` component). -/
abbrev PluginFn : Type := Context → Context × Option String

/-- The dialog handler as run to completion through the continuation engine:
given a context it yields the mutated context and, when the chain threw, the
error.  Mutations performed before a throw are kept, as in JavaScript. -/
abbrev HandlerFn : Type := Context → Context × Option String

/-- The error handler, invoked with the context and the triggering error (the
source passes the error as the `error` property). -/
abbrev ErrorHandlerFn : Type := Context → String → Context × Option String

/-- Run every plugin against one context (inner `Promise.all` of Bot.ts line
255).  All plugins run (a rejection does not cancel the others); the recorded
error is the first one in order. -/
def runPlugins (plugins : List PluginFn) (c : Context) : Context × Option String :=
  plugins.foldl
    (fun acc p =>
      let (c', e') := p acc.1
      (c', acc.2 <|> e'))
    (c, none)

/-- Run the plugins against every context (outer `Promise.all` of Bot.ts lines
253–257); the whole phase fails with the first plugin error, which the source
lets escape to the caller of the request handler. -/
def pluginPhase (plugins : List PluginFn) : List Context → List Context × Option String
  | [] => ([], none)
  | c :: cs =>
      let (c', e') := runPlugins plugins c
      let (cs', es) := pluginPhase plugins cs
      (c' :: cs', e' <|> es)

/-- The per-context task of Bot.ts lines 269–287: run the handler through the
continuation engine, on success invoke `handlerDidEnd` when present, on
failure run the error handler when registered; an unrecovered failure is
emitted on the error bus and re-raised, rejecting this context task. -/
def contextTask (handler : HandlerFn) (errorHandler : Option ErrorHandlerFn)
    (c : Context) : Context × Option String × List CallRec :=
  let (c1, e1) := handler c
  let afterEnd : Context × Option String :=
    match e1 with
    | none =>
        match c1.didEnd with
        | some (some derr) => (c1, some derr)
        | _ => (c1, none)
    | some e => (c1, some e)
  match afterEnd.2 with
  | none => (afterEnd.1, none, [])
  | some err =>
      match errorHandler with
      | some eh =>
          let (c3, e3) := eh afterEnd.1 err
          match e3 with
          | none => (c3, none, [])
          | some e3' => (c3, some e3', [.emitErrorCall e3'])
      | none => (afterEnd.1, some err, [.emitErrorCall err])

/-- All per-context tasks (the `Promise.all` bound to `promises`, Bot.ts lines
268–288).  The aggregate error is the first rejection in order, matching the
rejection `Promise.all` propagates; every task still runs to completion. -/
def taskPhase (handler : HandlerFn) (errorHandler : Option ErrorHandlerFn) :
    List Context → List Context × Option String × List CallRec
  | [] => ([], none, [])
  | c :: cs =>
      let (c', e', tr) := contextTask handler errorHandler c
      let (cs', es, trs) := taskPhase handler errorHandler cs
      (c' :: cs', e' <|> es, tr ++ trs)

/-- Session persistence (Bot.ts lines 294–310 and 326–342): for every context
set `isSessionWritten`, and when the context holds a session stamp
`lastActivity` and write the session back keyed by its `id`. -/
def persistPhase (now : Nat) : List Context → Store → List Context × Store × List CallRec
  | [], st => ([], st, [])
  | c :: cs, st =>
      let c1 : Context := { c with isSessionWritten := true }
      match c1.session with
      | none =>
          let (cs', st', tr) := persistPhase now cs st
          (c1 :: cs', st', tr)
      | some s =>
          let s' : Session := { s with lastActivity := some now }
          let c2 : Context := { c1 with session := some s' }
          let key := s'.id.getD "undefined"
          let (cs', st', tr) := persistPhase now cs (storeWrite st key s')
          (c2 :: cs', st', .storeWriteCall key s' :: tr)

/-! ## The request handler (`createRequestHandler`, Bot.ts lines 165–347)

The factory-level checks (missing primary handler, default error-bus sink) run
before the returned closure exists and are not claimed about; the model starts
at the returned closure, with the primary handler necessarily present.  The
outcome separates what is observable when the handler call returns
(`retValue`, `storeAtReturn`, `fgTrace`) from what the detached continuation of
fire-and-forget mode adds afterwards (`bgTrace`, `storeFinal`). -/

/-- Decidable equality for request handler results. -/
instance : DecidableEq (Except String JsValue) := fun a b =>
  match a, b with
  | .ok x, .ok y =>
      if h : x = y then .isTrue (by rw [h]) else .isFalse (by simp [h])
  | .error x, .error y =>
      if h : x = y then .isTrue (by rw [h]) else .isFalse (by simp [h])
  | .ok _, .error _ => .isFalse (by simp)
  | .error _, .ok _ => .isFalse (by simp)

/-- Everything observable about one request handler invocation. -/
structure DispatchOutcome : Type where
  retValue : Except String JsValue
  storeAtReturn : Store
  storeFinal : Store
  initializedAfter : Bool
  fgTrace : List CallRec
  bgTrace : List CallRec
  contextsAfter : List Context
deriving Repr, DecidableEq

/-- Whether a request handler result carries no response payload (it is either
a rejection or the value `undefined`). -/
def retHasNoPayload : Except String JsValue → Bool
  | .ok v => v = .undef
  | .error _ => true

/-- The `try { await promises; … persist … } catch` of blocking mode and the
detached `promises.then(… persist …)` of fire-and-forget mode: persistence
runs only when the aggregate task promise resolved; when it rejected the
persistence loop is never reached and the error is only logged. -/
def persistIfOk (now : Nat) (taskErr : Option String) (ctxs : List Context)
    (store : Store) : List Context × Store × List CallRec :=
  match taskErr with
  | none => persistPhase now ctxs store
  | some _ => (ctxs, store, [])

/-- The response shaping of blocking mode (Bot.ts lines 315–321):
`contexts[0].response` is read and returned unconditionally; on an empty
context array the member access on `undefined` throws a `TypeError`. -/
def syncResponse (ctxs : List Context) : Except String JsValue :=
  match ctxs.head? with
  | none =>
      .error "TypeError: Cannot read properties of undefined (reading response)"
  | some c => .ok c.response

/-- The request handler returned by `createRequestHandler` (Bot.ts lines
176–346).  Parameters: the sync-mode flag, the connector, the plugin list, the
primary handler, the optional error handler, the key-casing normalization
(`camelcaseKeysDeep`, external), the clock value used for `Date.now()`, the
`_initialized` latch, the session store contents, the raw body (`none` models
`undefined`/`null`) and the request metadata. -/
def requestHandler (sync : Bool) (conn : Connector) (plugins : List PluginFn)
    (handler : HandlerFn) (errorHandler : Option ErrorHandlerFn)
    (camel : Body → Body) (now : Nat) (initialized : Bool) (store : Store)
    (inputBody : Option Body) (rc : ReqCtx) : DispatchOutcome :=
  if jsFalsy inputBody then
    { retValue := .error "Bot.createRequestHandler: Missing argument.",
      storeAtReturn := store, storeFinal := store,
      initializedAfter := initialized, fgTrace := [], bgTrace := [],
      contextsAfter := [] }
  else
    let initTr : List CallRec := if initialized then [] else [.storeInitCall]
    let body := camel (inputBody.getD "")
    let events := conn.mapRequestToEvents body
    let res := resolveAll conn body events.length rc store events
    let fg0 : List CallRec := initTr ++ [.mapEventsCall body] ++ res.2
    match pluginPhase plugins res.1 with
    | (ctxs1, some pluginErr) =>
        { retValue := .error pluginErr, storeAtReturn := store,
          storeFinal := store, initializedAfter := true, fgTrace := fg0,
          bgTrace := [], contextsAfter := ctxs1 }
    | (ctxs1, none) =>
        let tasks := taskPhase handler errorHandler ctxs1
        if sync then
          let per := persistIfOk now tasks.2.1 tasks.1 store
          { retValue := syncResponse per.1, storeAtReturn := per.2.1,
            storeFinal := per.2.1, initializedAfter := true,
            fgTrace := fg0 ++ tasks.2.2 ++ per.2.2,
            bgTrace := [], contextsAfter := per.1 }
        else
          let per := persistIfOk now tasks.2.1 tasks.1 store
          { retValue := .ok .undef, storeAtReturn := store,
            storeFinal := per.2.1, initializedAfter := true,
            fgTrace := fg0 ++ tasks.2.2, bgTrace := per.2.2,
            contextsAfter := per.1 }

/-! ## The continuation engine (`run`, Bot.ts lines 42–70)

Modelled from the spec: the `Action` type is declared in `src/types.ts`, which
is not part of the provided sources; per §3 of the spec an Action is a
function of (context, properties) that performs side effects and returns
either nothing (terminal) or another Action (continuation).  `ActionR` is that
type, with the context specialised to an observable log so that invocation
order and the received properties are provable.  The fuel argument makes the
unbounded `while` loop of the source a total function: `none` models a chain
that is still running after `fuel` continuation steps. -/

/-- Context threaded through a dialog chain: the ordered log of invocations,
each recording which action ran and the properties it received. -/
abbrev RunCtx : Type := List (Nat × Props)

/-- An Action: invoking it mutates the context and yields either another
Action or nothing. -/
inductive ActionR : Type where
  | act : (RunCtx → Props → RunCtx × Option ActionR) → ActionR

/-- Invoke an action. -/
def ActionR.invoke : ActionR → RunCtx → Props → RunCtx × Option ActionR
  | .act body, c, p => body c p

/-- The `while (typeof nextDialog === "function")` loop of `run`: every
continuation is invoked with empty properties; when the result is not a
function the loop stops and the engine returns (`some` final context). -/
def runLoop : Nat → Option ActionR → RunCtx → Option RunCtx
  | _, none, c => some c
  | 0, some _, _ => none
  | fuel + 1, some a, c =>
      let (c', next) := a.invoke c []
      runLoop fuel next c'

/-- The continuation engine `run(action)` applied to (context, props): the
entry action is invoked with the given properties, then the loop follows the
returned continuations with empty properties.  The entry invariant of the
source (`typeof nextDialog === "function"`) holds by the type of `action`. -/
def runAction (fuel : Nat) (a : ActionR) (c : RunCtx) (p : Props) : Option RunCtx :=
  let (c', next) := a.invoke c p
  runLoop fuel next c'

/-- A linear chain of `n + 1` actions with indices `i, i+1, …, i+n`: each
action appends `(its index, the properties it received)` to the context and
returns the next action; the last one returns nothing. -/
def chain (i : Nat) : Nat → ActionR
  | 0 => .act fun c p => (c ++ [(i, p)], none)
  | n + 1 => .act fun c p => (c ++ [(i, p)], some (chain (i + 1) n))

/-- Expected log of the continuations of a chain: actions `i, i+1, …` each
invoked with empty properties. -/
def chainTrace (i : Nat) : Nat → List (Nat × Props)
  | 0 => []
  | n + 1 => (i, []) :: chainTrace (i + 1) n

/-! ## The initialization latch (`initSessionStore`, Bot.ts lines 158–163)

Requests evaluate `if (!this._initialized) { await this._sessions.init();
this._initialized = true; }`.  The `await` is a suspension point: the check
and the latch assignment are separate atomic steps, so concurrently admitted
requests interleave between them.  `InitWorld` is that two-step program, one
thread per in-flight request, with an explicit schedule. -/

/-- Where one request stands in `initSessionStore`. -/
inductive ThPhase : Type where
  | ready : ThPhase
  | waiting : ThPhase
  | finished : ThPhase
deriving Repr, DecidableEq

/-- Shared dispatcher state plus the phase of every in-flight request;
`initCalls` counts the invocations of `this._sessions.init()`. -/
structure InitWorld : Type where
  initialized : Bool
  initCalls : Nat
  threads : List ThPhase
deriving Repr, DecidableEq

/-- One atomic step of thread `i`: at `ready` it evaluates the
`!this._initialized` check and either returns at once or starts
`this._sessions.init()` (counted) and suspends; at `waiting` the `await`
resumes and it sets `this._initialized = true`. -/
def initStep (w : InitWorld) (i : Nat) : InitWorld :=
  match w.threads.get? i with
  | none => w
  | some .finished => w
  | some .ready =>
      if w.initialized then { w with threads := w.threads.set i .finished }
      else
        { w with initCalls := w.initCalls + 1,
                 threads := w.threads.set i .waiting }
  | some .waiting =>
      { w with initialized := true, threads := w.threads.set i .finished }

/-- Run a schedule: the list of thread indices, in the order the event loop
lets them proceed. -/
def initRun (w : InitWorld) : List Nat → InitWorld
  | [] => w
  | i :: rest => initRun (initStep w i) rest

/-- Fresh dispatcher with `n` requests about to enter `initSessionStore`. -/
def initWorld (n : Nat) : InitWorld :=
  { initialized := false, initCalls := 0, threads := List.replicate n .ready }

/-! ## Helper lemmas -/

/-- A property write on a session whose `id` and `platform` are frozen changes
neither field and keeps both frozen. -/
theorem applyOp_frozen (s : Session) (o : SessionOp)
    (h1 : s.idFrozen = true) (h2 : s.platformFrozen = true) :
    (s.applyOp o).id = s.id ∧ (s.applyOp o).platform = s.platform ∧
    (s.applyOp o).idFrozen = true ∧ (s.applyOp o).platformFrozen = true := by
  cases o <;> simp [Session.applyOp, h1, h2]

/-- A sequence of property writes on a session whose `id` and `platform` are
frozen changes neither field. -/
theorem applyOps_frozen : ∀ (ops : List SessionOp) (s : Session),
    s.idFrozen = true → s.platformFrozen = true →
    (s.applyOps ops).id = s.id ∧ (s.applyOps ops).platform = s.platform := by
  intro ops
  induction ops with
  | nil => intro s _ _; exact ⟨rfl, rfl⟩
  | cons o rest ih =>
      intro s h1 h2
      obtain ⟨e1, e2, f1, f2⟩ := applyOp_frozen s o h1 h2
      have hstep : Session.applyOps s (o :: rest) = Session.applyOps (s.applyOp o) rest := rfl
      obtain ⟨g1, g2⟩ := ih (s.applyOp o) f1 f2
      rw [hstep]
      exact ⟨g1.trans e1, g2.trans e2⟩

/-- Session normalization leaves both `id` and `platform` frozen. -/
theorem normalizeSession_frozen (platform sid : String) (s : Session) :
    (normalizeSession platform sid s).idFrozen = true ∧
    (normalizeSession platform sid s).platformFrozen = true := by
  simp only [normalizeSession, Session.applyOp]
  split <;> (try split) <;> simp

/-- The `id` fixed by normalization is `session.id || sessionId`. -/
theorem normalizeSession_id (platform sid : String) (s : Session) :
    (normalizeSession platform sid s).id = some (jsOrStr s.id sid) := by
  simp only [normalizeSession, Session.applyOp]
  split <;> (try split) <;> simp

/-- When the stored `platform` is falsy and not frozen, normalization defaults
it to the connector platform. -/
theorem normalizeSession_platform_default (platform sid : String) (s : Session)
    (h : jsFalsy s.platform = true) (h2 : s.platformFrozen = false) :
    (normalizeSession platform sid s).platform = some platform := by
  simp [normalizeSession, Session.applyOp, h, h2]

/-- JavaScript `||` takes the default exactly on falsy values. -/
theorem jsOrStr_falsy (a : Option String) (b : String) (h : jsFalsy a = true) :
    jsOrStr a b = b := by
  cases a with
  | none => rfl
  | some s => simp [jsFalsy] at h; simp [jsOrStr, h]

/-- JavaScript `||` keeps a truthy value. -/
theorem jsOrStr_truthy (a : Option String) (b : String) (h : jsFalsy a = false) :
    some (jsOrStr a b) = a := by
  cases a with
  | none => simp [jsFalsy] at h
  | some s => simp [jsFalsy] at h; simp [jsOrStr, h]

/-! ## Claim C3 — dialog chaining -/

/-- One continuation step of the engine is one invocation with empty
properties followed by the rest of the loop. -/
theorem runLoop_some (fuel : Nat) (a : ActionR) (c : RunCtx) :
    runLoop (fuel + 1) (some a) c = runAction fuel a c [] := by
  cases a
  rfl

/-- C3: the action returned by `run` invokes the initial Action with the given
properties, invokes each subsequent chained Action with empty properties,
executes the chain strictly in order until an invocation returns a
non-callable value, and then returns void.  Stated for every linear chain of
`n + 1` actions, every starting index, every context and every properties
value: the invocation log is exactly action `i` with `p` followed by actions
`i+1, …, i+n` each with empty properties, in that order, and the engine
completes with no residual action value. -/
theorem c3_run_chain_in_order (i n fuel : Nat) (c : RunCtx) (p : Props)
    (hfuel : n ≤ fuel) :
    runAction fuel (chain i n) c p
      = some (c ++ (i, p) :: chainTrace (i + 1) n) := by
  induction n generalizing i fuel c p with
  | zero =>
      simp [runAction, chain, ActionR.invoke, runLoop, chainTrace]
  | succ n ih =>
      obtain ⟨f, rfl⟩ : ∃ f, fuel = f + 1 := ⟨fuel - 1, by omega⟩
      have h1 : runAction (f + 1) (chain i (n + 1)) c p
          = runLoop (f + 1) (some (chain (i + 1) n)) (c ++ [(i, p)]) := rfl
      rw [h1, runLoop_some, ih (i + 1) f (c ++ [(i, p)]) [] (by omega)]
      simp [chainTrace]

/-- Witness for C3 at a concrete three-action chain with non-empty entry
properties. -/
theorem c3_run_chain_in_order_witness :
    2 ≤ 3 ∧ runAction 3 (chain 0 2) [] [("k", "v")]
      = some [(0, [("k", "v")]), (1, []), (2, [])] :=
  ⟨by decide, c3_run_chain_in_order 0 2 3 [] [("k", "v")] (by decide)⟩

/-! ## Claim C4 — immutability of session `id` and `platform` -/

/-- C4: once session resolution has fixed the `id` and `platform` fields, no
later property write — by the connector, a plugin, the dialog handler or the
error handler — changes them: after any sequence of writes both fields read
back unchanged. -/
theorem c4_id_platform_immutable (platform sessionId : String) (s : Session)
    (ops : List SessionOp) :
    ((normalizeSession platform sessionId s).applyOps ops).id
      = (normalizeSession platform sessionId s).id ∧
    ((normalizeSession platform sessionId s).applyOps ops).platform
      = (normalizeSession platform sessionId s).platform := by
  obtain ⟨h1, h2⟩ := normalizeSession_frozen platform sessionId s
  exact applyOps_frozen ops (normalizeSession platform sessionId s) h1 h2

/-! ## Claim C5 — session id composition and defaulting -/

/-- C5: when the connector produces a session key, the session id is composed
as `platform ++ ":" ++ key` and the store is read at that id; an absent read
starts from the empty record; the `id` defaults to the composed id exactly
when the stored one is unset (and is kept otherwise); the `platform` defaults
to the connector platform when unset; and the session handed to the connector
for `updateSession` is exactly this normalized session. -/
theorem c5_session_composition (conn : Connector) (body : Body)
    (numEvents : Nat) (rc : ReqCtx) (store : Store) (event : Event)
    (key : String) (s : Session)
    (hkey : conn.getUniqueSessionKey
        (if numEvents = 1 then .inl body else .inr event) rc = some key)
    (hs : s = (storeLookup store (conn.platform ++ ":" ++ key)).getD {}) :
    CallRec.storeReadCall (conn.platform ++ ":" ++ key)
      ∈ (resolveEvent conn body numEvents rc store event).2 ∧
    (storeLookup store (conn.platform ++ ":" ++ key) = none →
      s = ({} : Session)) ∧
    (jsFalsy s.id = true →
      (normalizeSession conn.platform (conn.platform ++ ":" ++ key) s).id
        = some (conn.platform ++ ":" ++ key)) ∧
    (jsFalsy s.id = false →
      (normalizeSession conn.platform (conn.platform ++ ":" ++ key) s).id
        = s.id) ∧
    (jsFalsy s.platform = true → s.platformFrozen = false →
      (normalizeSession conn.platform (conn.platform ++ ":" ++ key) s).platform
        = some conn.platform) ∧
    (resolveEvent conn body numEvents rc store event).1.session
      = some ((normalizeSession conn.platform (conn.platform ++ ":" ++ key) s).applyOps
          (conn.updateSessionOps
            (normalizeSession conn.platform (conn.platform ++ ":" ++ key) s)
            (if numEvents = 1 then .inl body else .inr event))) := by
  refine ⟨?_, ?_, ?_, ?_, ?_, ?_⟩
  · simp [resolveEvent, hkey]
  · intro hnone; rw [hs, hnone]; rfl
  · intro hfalsy
    rw [normalizeSession_id, jsOrStr_falsy _ _ hfalsy]
  · intro htruthy
    rw [normalizeSession_id, jsOrStr_truthy _ _ htruthy]
  · intro hfalsy hfree
    exact normalizeSession_platform_default _ _ _ hfalsy hfree
  · simp [resolveEvent, hkey, createContext, hs]

/-- Concrete single-event connector used by the C5 witness: platform
`console`, session key `u7`, update writing one data field. -/
def c5conn : Connector :=
  { platform := "console",
    mapRequestToEvents := fun _ => ["e0"],
    getUniqueSessionKey := fun _ _ => some "u7",
    updateSessionOps := fun _ _ => [.setData "k" "v"] }

/-- Witness for C5: a concrete connector and an empty store; the resolved
session gets the composed id, the connector platform and the update applied. -/
theorem c5_session_composition_witness :
    CallRec.storeReadCall (c5conn.platform ++ ":" ++ "u7")
      ∈ (resolveEvent c5conn "b" 1 none [] "e0").2 ∧
    (storeLookup [] (c5conn.platform ++ ":" ++ "u7") = none →
      ({} : Session) = ({} : Session)) ∧
    (jsFalsy ({} : Session).id = true →
      (normalizeSession c5conn.platform (c5conn.platform ++ ":" ++ "u7")
          ({} : Session)).id = some (c5conn.platform ++ ":" ++ "u7")) ∧
    (jsFalsy ({} : Session).id = false →
      (normalizeSession c5conn.platform (c5conn.platform ++ ":" ++ "u7")
          ({} : Session)).id = ({} : Session).id) ∧
    (jsFalsy ({} : Session).platform = true →
      ({} : Session).platformFrozen = false →
      (normalizeSession c5conn.platform (c5conn.platform ++ ":" ++ "u7")
          ({} : Session)).platform = some c5conn.platform) ∧
    (resolveEvent c5conn "b" 1 none [] "e0").1.session
      = some ((normalizeSession c5conn.platform
            (c5conn.platform ++ ":" ++ "u7") ({} : Session)).applyOps
          (c5conn.updateSessionOps
            (normalizeSession c5conn.platform
              (c5conn.platform ++ ":" ++ "u7") ({} : Session))
            (if (1 : Nat) = 1 then .inl "b" else .inr "e0"))) :=
  c5_session_composition c5conn "b" 1 none [] "e0" "u7" {} rfl rfl

/-! ## Trace classification lemmas -/

/-- No session-store write occurs in a trace. -/
def noWrites (tr : List CallRec) : Bool :=
  tr.all fun r => !r.isStoreWrite

/-- Every entry of a trace is a session-store write. -/
def allWrites (tr : List CallRec) : Bool :=
  tr.all fun r => r.isStoreWrite

/-- Concatenation splits the no-write property. -/
theorem noWrites_append (a b : List CallRec) :
    noWrites (a ++ b) = (noWrites a && noWrites b) := by
  simp [noWrites, List.all_append]

/-- Session resolution of one event performs no store write. -/
theorem resolveEvent_noWrites (conn : Connector) (body : Body) (n : Nat)
    (rc : ReqCtx) (store : Store) (e : Event) :
    noWrites (resolveEvent conn body n rc store e).2 = true := by
  simp only [resolveEvent]
  split <;> simp [noWrites, CallRec.isStoreWrite]

/-- Session resolution of a whole payload performs no store write. -/
theorem resolveAll_noWrites (conn : Connector) (body : Body) (n : Nat)
    (rc : ReqCtx) (store : Store) : ∀ (es : List Event),
    noWrites (resolveAll conn body n rc store es).2 = true := by
  intro es
  induction es with
  | nil => rfl
  | cons e rest ih =>
      simp only [resolveAll, noWrites_append]
      rw [resolveEvent_noWrites]
      simpa [noWrites] using ih

/-- A per-context task touches the error bus at most; it never writes the
store. -/
theorem contextTask_noWrites (h : HandlerFn) (eh : Option ErrorHandlerFn)
    (c : Context) : noWrites (contextTask h eh c).2.2 = true := by
  simp only [contextTask]
  repeat' split
  all_goals simp [noWrites, CallRec.isStoreWrite]

/-- The whole task phase never writes the store. -/
theorem taskPhase_noWrites (h : HandlerFn) (eh : Option ErrorHandlerFn) :
    ∀ (cs : List Context), noWrites (taskPhase h eh cs).2.2 = true := by
  intro cs
  induction cs with
  | nil => rfl
  | cons c rest ih =>
      simp only [taskPhase, noWrites_append]
      rw [contextTask_noWrites]
      simpa [noWrites] using ih

/-- The persistence phase emits only store writes. -/
theorem persistPhase_allWrites (now : Nat) : ∀ (cs : List Context) (st : Store),
    allWrites (persistPhase now cs st).2.2 = true := by
  intro cs
  induction cs with
  | nil => intro st; rfl
  | cons c rest ih =>
      intro st
      simp only [persistPhase]
      split
      · exact ih _
      · simp only [allWrites, List.all_cons, CallRec.isStoreWrite, Bool.true_and]
        exact ih _

/-! ## Claim C7 — null/empty body is fatal before any work -/

/-- C7: a falsy (null or empty) inbound body makes the request handler fail
fatally with the configuration error, with no session-store call (not even
init), no connector call, no background work and no state change. -/
theorem c7_empty_body_fatal (sync : Bool) (conn : Connector)
    (plugins : List PluginFn) (handler : HandlerFn)
    (errorHandler : Option ErrorHandlerFn) (camel : Body → Body) (now : Nat)
    (initialized : Bool) (store : Store) (inputBody : Option Body) (rc : ReqCtx)
    (hbody : jsFalsy inputBody = true) :
    requestHandler sync conn plugins handler errorHandler camel now initialized
        store inputBody rc
      = { retValue := .error "Bot.createRequestHandler: Missing argument.",
          storeAtReturn := store, storeFinal := store,
          initializedAfter := initialized, fgTrace := [], bgTrace := [],
          contextsAfter := [] } := by
  simp [requestHandler, hbody]

/-- Witness for C7 at the absent (`undefined`) body. -/
theorem c7_empty_body_fatal_witness :
    requestHandler true c5conn [] (fun c => (c, none)) none id 0 false []
        none none
      = { retValue := .error "Bot.createRequestHandler: Missing argument.",
          storeAtReturn := [], storeFinal := [], initializedAfter := false,
          fgTrace := [], bgTrace := [], contextsAfter := [] } :=
  c7_empty_body_fatal true c5conn [] (fun c => (c, none)) none id 0 false []
    none none rfl

/-! ## Claim C10 — empty event sequence in blocking mode -/

/-- C10: in blocking mode, a non-empty body that the connector maps to an
empty event sequence makes the request handler read `contexts[0].response` of
an empty context array, so the request rejects with a runtime `TypeError`
instead of returning nothing. -/
theorem c10_empty_events_type_error (conn : Connector) (plugins : List PluginFn)
    (handler : HandlerFn) (errorHandler : Option ErrorHandlerFn)
    (camel : Body → Body) (now : Nat) (initialized : Bool) (store : Store)
    (inputBody : Option Body) (rc : ReqCtx)
    (hbody : jsFalsy inputBody = false)
    (hev : conn.mapRequestToEvents (camel (inputBody.getD "")) = []) :
    (requestHandler true conn plugins handler errorHandler camel now
        initialized store inputBody rc).retValue
      = .error "TypeError: Cannot read properties of undefined (reading response)" := by
  simp [requestHandler, hbody, hev, resolveAll, pluginPhase, taskPhase,
    persistIfOk, persistPhase, syncResponse]

/-- Connector whose payloads decode to no event at all. -/
def c10conn : Connector :=
  { platform := "console",
    mapRequestToEvents := fun _ => [],
    getUniqueSessionKey := fun _ _ => none,
    updateSessionOps := fun _ _ => [] }

/-- Witness for C10 at a concrete empty-event payload. -/
theorem c10_empty_events_type_error_witness :
    (requestHandler true c10conn [] (fun c => (c, none)) none id 5 false []
        (some "b") none).retValue
      = .error "TypeError: Cannot read properties of undefined (reading response)" :=
  c10_empty_events_type_error c10conn [] (fun c => (c, none)) none id 5 false
    [] (some "b") none (by decide) rfl

/-! ## Claim C9 — fire-and-forget mode -/

/-- C9: in fire-and-forget mode, for every non-empty body the value the
request handler hands back to the caller carries no response payload, the
store is untouched at the moment the call returns, the foreground trace holds
no store write, and every write of the detached continuation — which runs
after all per-event tasks settle — is a session persistence write. -/
theorem c9_async_no_payload_persist_after (conn : Connector)
    (plugins : List PluginFn) (handler : HandlerFn)
    (errorHandler : Option ErrorHandlerFn) (camel : Body → Body) (now : Nat)
    (initialized : Bool) (store : Store) (inputBody : Option Body) (rc : ReqCtx)
    (hbody : jsFalsy inputBody = false) :
    retHasNoPayload (requestHandler false conn plugins handler errorHandler
        camel now initialized store inputBody rc).retValue = true ∧
    (requestHandler false conn plugins handler errorHandler camel now
        initialized store inputBody rc).storeAtReturn = store ∧
    noWrites (requestHandler false conn plugins handler errorHandler camel now
        initialized store inputBody rc).fgTrace = true ∧
    allWrites (requestHandler false conn plugins handler errorHandler camel now
        initialized store inputBody rc).bgTrace = true := by
  have hinit : noWrites (if initialized then ([] : List CallRec)
      else [.storeInitCall]) = true := by
    cases initialized <;> simp [noWrites, CallRec.isStoreWrite]
  simp only [requestHandler, hbody]
  rcases hp : pluginPhase plugins (resolveAll conn (camel (inputBody.getD ""))
      (conn.mapRequestToEvents (camel (inputBody.getD ""))).length rc store
      (conn.mapRequestToEvents (camel (inputBody.getD "")))).1 with ⟨ctxs1, e⟩
  cases e with
  | some pluginErr =>
      simp only [hp, Bool.false_eq_true, if_false, retHasNoPayload]
      refine ⟨by trivial, by trivial, ?_, by trivial⟩
      simp only [noWrites_append, hinit, resolveAll_noWrites,
        Bool.and_true, Bool.true_and]
      simp [noWrites, CallRec.isStoreWrite]
  | none =>
      simp only [hp, Bool.false_eq_true, if_false, retHasNoPayload]
      refine ⟨by trivial, by trivial, ?_, ?_⟩
      · simp only [noWrites_append, hinit, resolveAll_noWrites,
          taskPhase_noWrites, Bool.and_true, Bool.true_and]
        simp [noWrites, CallRec.isStoreWrite]
      · cases hte : (taskPhase handler errorHandler ctxs1).2.1 with
        | none => simp [persistIfOk, hte, persistPhase_allWrites]
        | some err => simp [persistIfOk, hte, allWrites]

/-- Witness for C9: concrete fire-and-forget run over a one-event payload
holding a session. -/
theorem c9_async_no_payload_persist_after_witness :
    retHasNoPayload (requestHandler false c5conn [] (fun c => (c, none)) none
        id 7 false [] (some "b") none).retValue = true ∧
    (requestHandler false c5conn [] (fun c => (c, none)) none id 7 false []
        (some "b") none).storeAtReturn = [] ∧
    noWrites (requestHandler false c5conn [] (fun c => (c, none)) none id 7
        false [] (some "b") none).fgTrace = true ∧
    allWrites (requestHandler false c5conn [] (fun c => (c, none)) none id 7
        false [] (some "b") none).bgTrace = true :=
  c9_async_no_payload_persist_after c5conn [] (fun c => (c, none)) none id 7
    false [] (some "b") none (by decide)

/-! ## Claim C6 — body versus individual event as connector argument -/

/-- The argument shape the claim prescribes for `getUniqueSessionKey` and
`updateSession`: the whole normalized body exactly when the payload mapped to
one event, an individual event of the payload otherwise. -/
def argConsistent (events : List Event) (body : Body) : BodyOrEvent → Bool
  | .inl b => decide (events.length = 1) && decide (b = body)
  | .inr e => decide (events.length ≠ 1) && events.contains e

/-- The body-or-event argument recorded while resolving one event is exactly
the one chosen by the single-event rule. -/
theorem resolveEvent_arg (conn : Connector) (body : Body) (n : Nat)
    (rc : ReqCtx) (store : Store) (e : Event) (a : BodyOrEvent)
    (h : CallRec.getKeyCall a ∈ (resolveEvent conn body n rc store e).2 ∨
      CallRec.updSessionCall a ∈ (resolveEvent conn body n rc store e).2) :
    a = (if n = 1 then .inl body else .inr e) := by
  simp only [resolveEvent] at h
  cases hk : conn.getUniqueSessionKey (if n = 1 then Sum.inl body else Sum.inr e) rc with
  | none =>
      rw [hk] at h
      simp at h
      tauto
  | some key =>
      rw [hk] at h
      simp at h
      tauto

/-- Every body-or-event argument recorded during the resolution fan-out comes
from resolving one of the events of the payload, with the single-event rule. -/
theorem resolveAll_arg (conn : Connector) (body : Body) (n : Nat) (rc : ReqCtx)
    (store : Store) : ∀ (es : List Event) (a : BodyOrEvent),
    (CallRec.getKeyCall a ∈ (resolveAll conn body n rc store es).2 ∨
      CallRec.updSessionCall a ∈ (resolveAll conn body n rc store es).2) →
    ∃ e, e ∈ es ∧ a = (if n = 1 then .inl body else .inr e) := by
  intro es
  induction es with
  | nil => intro a h; simp [resolveAll] at h
  | cons e rest ih =>
      intro a h
      simp only [resolveAll, List.mem_append] at h
      rcases h with (h | h) | (h | h)
      · exact ⟨e, List.mem_cons_self e rest, resolveEvent_arg _ _ _ _ _ _ _ (Or.inl h)⟩
      · obtain ⟨e', he', ha⟩ := ih a (Or.inl h)
        exact ⟨e', List.mem_cons_of_mem e he', ha⟩
      · exact ⟨e, List.mem_cons_self e rest, resolveEvent_arg _ _ _ _ _ _ _ (Or.inr h)⟩
      · obtain ⟨e', he', ha⟩ := ih a (Or.inr h)
        exact ⟨e', List.mem_cons_of_mem e he', ha⟩

/-- Every error-bus record of one context task is an `emitError`. -/
theorem contextTask_trace_emit (h : HandlerFn) (eh : Option ErrorHandlerFn)
    (c : Context) :
    ∀ r ∈ (contextTask h eh c).2.2, ∃ s, r = CallRec.emitErrorCall s := by
  simp only [contextTask]
  repeat' split
  all_goals simp

/-- Every trace record of the task phase is an `emitError`. -/
theorem taskPhase_trace_emit (h : HandlerFn) (eh : Option ErrorHandlerFn) :
    ∀ (cs : List Context), ∀ r ∈ (taskPhase h eh cs).2.2,
      ∃ s, r = CallRec.emitErrorCall s := by
  intro cs
  induction cs with
  | nil => intro r hr; simp [taskPhase] at hr
  | cons c rest ih =>
      intro r hr
      simp only [taskPhase, List.mem_append] at hr
      rcases hr with hr | hr
      · exact contextTask_trace_emit h eh c r hr
      · exact ih r hr

/-- Whether a trace entry is a `getUniqueSessionKey` or `updateSession` call. -/
def CallRec.isArgCall : CallRec → Bool
  | .getKeyCall _ => true
  | .updSessionCall _ => true
  | _ => false

/-- An argument call found in a concatenation whose left part holds none sits
in the right part. -/
theorem arg_mem_right {r : CallRec} {xs ys : List CallRec}
    (hx : xs.all (fun q => ! q.isArgCall) = true) (hr : r.isArgCall = true)
    (h : r ∈ xs ++ ys) : r ∈ ys := by
  rcases List.mem_append.mp h with h | h
  · rw [List.all_eq_true] at hx
    have := hx r h
    rw [hr] at this
    cases this
  · exact h

/-- An argument call found in a concatenation whose right part holds none sits
in the left part. -/
theorem arg_mem_left {r : CallRec} {xs ys : List CallRec}
    (hy : ys.all (fun q => ! q.isArgCall) = true) (hr : r.isArgCall = true)
    (h : r ∈ xs ++ ys) : r ∈ xs := by
  rcases List.mem_append.mp h with h | h
  · exact h
  · rw [List.all_eq_true] at hy
    have := hy r h
    rw [hr] at this
    cases this

/-- A per-context task records no connector argument call. -/
theorem contextTask_noArgs (h : HandlerFn) (eh : Option ErrorHandlerFn)
    (c : Context) :
    ((contextTask h eh c).2.2).all (fun q => ! q.isArgCall) = true := by
  simp only [contextTask]
  repeat' split
  all_goals simp [CallRec.isArgCall]

/-- The task phase records no connector argument call. -/
theorem taskPhase_noArgs (h : HandlerFn) (eh : Option ErrorHandlerFn) :
    ∀ (cs : List Context),
    ((taskPhase h eh cs).2.2).all (fun q => ! q.isArgCall) = true := by
  intro cs
  induction cs with
  | nil => rfl
  | cons c rest ih =>
      simp only [taskPhase, List.all_append]
      rw [contextTask_noArgs]
      simpa using ih

/-- The persistence phase records no connector argument call. -/
theorem persistPhase_noArgs (now : Nat) : ∀ (cs : List Context) (st : Store),
    ((persistPhase now cs st).2.2).all (fun q => ! q.isArgCall) = true := by
  intro cs
  induction cs with
  | nil => intro st; rfl
  | cons c rest ih =>
      intro st
      simp only [persistPhase]
      split
      · exact ih _
      · simp only [List.all_cons, CallRec.isArgCall, Bool.not_false, Bool.true_and]
        exact ih _

/-- The conditional persistence of either response mode records no connector
argument call. -/
theorem persistIfOk_noArgs (now : Nat) (te : Option String) (cs : List Context)
    (st : Store) :
    ((persistIfOk now te cs st).2.2).all (fun q => ! q.isArgCall) = true := by
  cases te with
  | none => exact persistPhase_noArgs now cs st
  | some e => rfl

/-- Every `getUniqueSessionKey` / `updateSession` call of a request originates
in the session-resolution fan-out. -/
theorem requestHandler_argCall_mem (sync : Bool) (conn : Connector)
    (plugins : List PluginFn) (handler : HandlerFn)
    (errorHandler : Option ErrorHandlerFn) (camel : Body → Body) (now : Nat)
    (initialized : Bool) (store : Store) (inputBody : Option Body) (rc : ReqCtx)
    (r : CallRec) (hbody : jsFalsy inputBody = false)
    (hr : r.isArgCall = true)
    (h : r ∈ (requestHandler sync conn plugins handler errorHandler camel now
        initialized store inputBody rc).fgTrace) :
    r ∈ (resolveAll conn (camel (inputBody.getD ""))
        (conn.mapRequestToEvents (camel (inputBody.getD ""))).length rc store
        (conn.mapRequestToEvents (camel (inputBody.getD "")))).2 := by
  have hinit : (if initialized then ([] : List CallRec)
      else [.storeInitCall]).all (fun q => ! q.isArgCall) = true := by
    cases initialized <;> simp [CallRec.isArgCall]
  have hmap : ([CallRec.mapEventsCall (camel (inputBody.getD ""))]).all
      (fun q => ! q.isArgCall) = true := by
    simp [CallRec.isArgCall]
  have hleft : ((if initialized then ([] : List CallRec)
      else [.storeInitCall]) ++ [CallRec.mapEventsCall
        (camel (inputBody.getD ""))]).all (fun q => ! q.isArgCall) = true := by
    rw [List.all_append, hinit, hmap]
    rfl
  simp only [requestHandler, hbody, Bool.false_eq_true, if_false] at h
  rcases hp : pluginPhase plugins (resolveAll conn (camel (inputBody.getD ""))
      (conn.mapRequestToEvents (camel (inputBody.getD ""))).length rc store
      (conn.mapRequestToEvents (camel (inputBody.getD "")))).1 with ⟨ctxs1, pe⟩
  rw [hp] at h
  cases pe with
  | some perr =>
      simp only at h
      exact arg_mem_right hleft hr h
  | none =>
      cases sync with
      | true =>
          simp only [if_true] at h
          have h1 := arg_mem_left (persistIfOk_noArgs now
            (taskPhase handler errorHandler ctxs1).2.1
            (taskPhase handler errorHandler ctxs1).1 store) hr h
          have h2 := arg_mem_left (taskPhase_noArgs handler errorHandler ctxs1)
            hr h1
          exact arg_mem_right hleft hr h2
      | false =>
          simp only [Bool.false_eq_true, if_false] at h
          have h1 := arg_mem_left (taskPhase_noArgs handler errorHandler ctxs1)
            hr h
          exact arg_mem_right hleft hr h1

/-- The argument chosen by the single-event rule for an event of the payload
satisfies the claimed shape. -/
theorem argConsistent_of (events : List Event) (body : Body) (e : Event)
    (he : e ∈ events) :
    argConsistent events body
      (if events.length = 1 then .inl body else .inr e) = true := by
  by_cases h1 : events.length = 1
  · simp [argConsistent, h1]
  · simp [argConsistent, h1, he]

/-- C6: every `getUniqueSessionKey` and `updateSession` call of a request
receives the whole normalized body exactly when the connector mapped the body
to one event, and an individual event of the payload otherwise; moreover the
call made while resolving event `e` receives exactly `e` in the multi-event
case. -/
theorem c6_arg_shape (sync : Bool) (conn : Connector) (plugins : List PluginFn)
    (handler : HandlerFn) (errorHandler : Option ErrorHandlerFn)
    (camel : Body → Body) (now : Nat) (initialized : Bool)
    (store store2 : Store) (inputBody : Option Body) (rc : ReqCtx)
    (a a2 : BodyOrEvent) (e : Event)
    (hbody : jsFalsy inputBody = false) :
    ((CallRec.getKeyCall a ∈ (requestHandler sync conn plugins handler
          errorHandler camel now initialized store inputBody rc).fgTrace ∨
      CallRec.updSessionCall a ∈ (requestHandler sync conn plugins handler
          errorHandler camel now initialized store inputBody rc).fgTrace) →
      argConsistent (conn.mapRequestToEvents (camel (inputBody.getD "")))
        (camel (inputBody.getD "")) a = true) ∧
    ((CallRec.getKeyCall a2 ∈ (resolveEvent conn (camel (inputBody.getD ""))
          (conn.mapRequestToEvents (camel (inputBody.getD ""))).length rc
          store2 e).2 ∨
      CallRec.updSessionCall a2 ∈ (resolveEvent conn (camel (inputBody.getD ""))
          (conn.mapRequestToEvents (camel (inputBody.getD ""))).length rc
          store2 e).2) →
      a2 = (if (conn.mapRequestToEvents (camel (inputBody.getD ""))).length = 1
        then .inl (camel (inputBody.getD "")) else .inr e)) := by
  constructor
  · intro h
    have hmem : CallRec.getKeyCall a ∈ (resolveAll conn
        (camel (inputBody.getD ""))
        (conn.mapRequestToEvents (camel (inputBody.getD ""))).length rc store
        (conn.mapRequestToEvents (camel (inputBody.getD "")))).2 ∨
        CallRec.updSessionCall a ∈ (resolveAll conn (camel (inputBody.getD ""))
        (conn.mapRequestToEvents (camel (inputBody.getD ""))).length rc store
        (conn.mapRequestToEvents (camel (inputBody.getD "")))).2 := by
      rcases h with h | h
      · exact Or.inl (requestHandler_argCall_mem sync conn plugins handler
          errorHandler camel now initialized store inputBody rc _ hbody rfl h)
      · exact Or.inr (requestHandler_argCall_mem sync conn plugins handler
          errorHandler camel now initialized store inputBody rc _ hbody rfl h)
    obtain ⟨e', he', ha⟩ := resolveAll_arg conn (camel (inputBody.getD ""))
      (conn.mapRequestToEvents (camel (inputBody.getD ""))).length rc store
      (conn.mapRequestToEvents (camel (inputBody.getD ""))) a hmem
    rw [ha]
    exact argConsistent_of _ _ _ he'
  · intro h
    exact resolveEvent_arg conn (camel (inputBody.getD ""))
      (conn.mapRequestToEvents (camel (inputBody.getD ""))).length rc store2 e
      a2 h

/-- Witness for C6 at a concrete single-event payload. -/
theorem c6_arg_shape_witness :
    ((CallRec.getKeyCall (Sum.inl "b") ∈ (requestHandler true c5conn []
          (fun c => (c, none)) none id 3 false [] (some "b") none).fgTrace ∨
      CallRec.updSessionCall (Sum.inl "b") ∈ (requestHandler true c5conn []
          (fun c => (c, none)) none id 3 false [] (some "b") none).fgTrace) →
      argConsistent ["e0"] "b" (Sum.inl "b") = true) ∧
    ((CallRec.getKeyCall (Sum.inr "e0")
          ∈ (resolveEvent c5conn "b" (["e0"] : List Event).length none [] "e0").2 ∨
      CallRec.updSessionCall (Sum.inr "e0")
          ∈ (resolveEvent c5conn "b" (["e0"] : List Event).length none [] "e0").2) →
      Sum.inr "e0" = (if (["e0"] : List Event).length = 1
        then Sum.inl "b" else Sum.inr "e0")) :=
  c6_arg_shape true c5conn [] (fun c => (c, none)) none id 3 false [] []
    (some "b") none (Sum.inl "b") (Sum.inr "e0") "e0" (by decide)

/-! ## Claim C2 — blocking-mode response shaping -/

/-- Two-event connector with distinct session keys per event, used by the C1
and C2 scenarios. -/
def twoEventConn : Connector :=
  { platform := "console",
    mapRequestToEvents := fun _ => ["e0", "e1"],
    getUniqueSessionKey := fun arg _ =>
      match arg with
      | .inl _ => some "u0"
      | .inr e => if e = "e0" then some "u0" else some "u1",
    updateSessionOps := fun _ _ => [] }

/-- Handler that accumulates a plain string response and succeeds. -/
def strHandler : HandlerFn := fun c => ({ c with response := .str "hi" }, none)

/-- Counterexample to C2 as stated: with a single-event payload whose handler
accumulates the string `"hi"` — a truthy but non-object value — blocking mode
still returns that string to the caller instead of returning nothing; the
structured-value check gates only debug logging. -/
theorem c2_counterexample_string_returned :
    (requestHandler true c5conn [] strHandler none id 5 false [] (some "b")
        none).retValue = .ok (.str "hi") ∧
    (JsValue.str "hi").jsTruthy = true ∧
    (JsValue.str "hi").jsIsObject = false := by
  decide

/-- C2 amended: in blocking mode, after tasks settle and persistence finishes,
the request handler returns the first context's accumulated response payload
unconditionally, whatever value it holds (the non-empty-object test only gates
debug logging); responses of other contexts are never merged into the returned
value, which is exactly the head context's response slot. -/
theorem c2_first_response_returned (conn : Connector) (plugins : List PluginFn)
    (handler : HandlerFn) (errorHandler : Option ErrorHandlerFn)
    (camel : Body → Body) (now : Nat) (initialized : Bool) (store : Store)
    (inputBody : Option Body) (rc : ReqCtx) {ctxs1 : List Context}
    {c0 : Context}
    (hbody : jsFalsy inputBody = false)
    (hplug : pluginPhase plugins (resolveAll conn (camel (inputBody.getD ""))
        (conn.mapRequestToEvents (camel (inputBody.getD ""))).length rc store
        (conn.mapRequestToEvents (camel (inputBody.getD "")))).1
      = (ctxs1, none))
    (hhead : (requestHandler true conn plugins handler errorHandler camel now
        initialized store inputBody rc).contextsAfter.head? = some c0) :
    (requestHandler true conn plugins handler errorHandler camel now
        initialized store inputBody rc).retValue = .ok c0.response := by
  simp only [requestHandler, hbody, Bool.false_eq_true, if_false, hplug,
    if_true] at hhead ⊢
  simp only [syncResponse, hhead]

/-- Witness for the amended C2 at the concrete string-response run. -/
theorem c2_first_response_returned_witness :
    (requestHandler true c5conn [] strHandler none id 5 false [] (some "b")
        none).retValue = .ok (.str "hi") :=
  c2_first_response_returned c5conn [] strHandler none id 5 false []
    (some "b") none (by decide) rfl rfl

/-! ## Claim C1 — error isolation in blocking mode -/

/-- Handler for the C1 scenario: the first event succeeds, accumulates an
object response and writes into its session; the second event fails and no
error handler is registered. -/
def mixedHandler : HandlerFn := fun c =>
  if c.event = "e1" then (c, some "boom")
  else
    ({ c with response := .obj [("text", "hi")],
              session := c.session.map
                (fun s => s.applyOp (.setData "seen" "yes")) }, none)

/-- Counterexample to C1 as stated: a two-event payload where the first
context succeeds holding a session and the second fails unrecovered.  The
succeeding context's response is returned, but its session is NOT written to
the store: the store is unchanged, no write call occurs, and the context's
`isSessionWritten` flag stays false — the rejection of the aggregate task
promise makes blocking mode skip the whole persistence loop. -/
theorem c1_counterexample_session_not_persisted :
    (requestHandler true twoEventConn [] mixedHandler none id 123 false []
        (some "payload") none).storeFinal = [] ∧
    noWrites (requestHandler true twoEventConn [] mixedHandler none id 123
        false [] (some "payload") none).fgTrace = true ∧
    ((requestHandler true twoEventConn [] mixedHandler none id 123 false []
        (some "payload") none).contextsAfter.head?.map
          (fun c => c.isSessionWritten)) = some false ∧
    ((requestHandler true twoEventConn [] mixedHandler none id 123 false []
        (some "payload") none).contextsAfter.head?.map
          (fun c => c.session.isSome)) = some true ∧
    (requestHandler true twoEventConn [] mixedHandler none id 123 false []
        (some "payload") none).retValue = .ok (.obj [("text", "hi")]) := by
  decide

/-- C1 amended: in blocking mode, when any context's task fails unrecovered,
the whole persistence phase is skipped — the store is left unchanged and no
session (not even a succeeding context's) is written — while the first
context's accumulated response is still returned to the caller. -/
theorem c1_failure_skips_persistence_response_kept (conn : Connector)
    (plugins : List PluginFn) (handler : HandlerFn)
    (errorHandler : Option ErrorHandlerFn) (camel : Body → Body) (now : Nat)
    (initialized : Bool) (store : Store) (inputBody : Option Body) (rc : ReqCtx)
    {ctxs1 ctxs2 : List Context} {err : String} {taskTr : List CallRec}
    {c0 : Context}
    (hbody : jsFalsy inputBody = false)
    (hplug : pluginPhase plugins (resolveAll conn (camel (inputBody.getD ""))
        (conn.mapRequestToEvents (camel (inputBody.getD ""))).length rc store
        (conn.mapRequestToEvents (camel (inputBody.getD "")))).1
      = (ctxs1, none))
    (htask : taskPhase handler errorHandler ctxs1 = (ctxs2, some err, taskTr))
    (hhead : ctxs2.head? = some c0) :
    (requestHandler true conn plugins handler errorHandler camel now initialized
        store inputBody rc).storeFinal = store ∧
    noWrites (requestHandler true conn plugins handler errorHandler camel now
        initialized store inputBody rc).fgTrace = true ∧
    (requestHandler true conn plugins handler errorHandler camel now initialized
        store inputBody rc).retValue = .ok c0.response := by
  have hinit : noWrites (if initialized then ([] : List CallRec)
      else [.storeInitCall]) = true := by
    cases initialized <;> simp [noWrites, CallRec.isStoreWrite]
  have htaskw : noWrites taskTr = true := by
    have := taskPhase_noWrites handler errorHandler ctxs1
    rw [htask] at this
    exact this
  simp only [requestHandler, hbody, Bool.false_eq_true, if_false, hplug,
    if_true, htask, persistIfOk]
  refine ⟨by trivial, ?_, ?_⟩
  · simp only [noWrites_append, hinit, resolveAll_noWrites, htaskw,
      Bool.and_true, Bool.true_and]
    simp [noWrites, CallRec.isStoreWrite]
  · simp only [syncResponse, hhead]

/-- Witness for the amended C1 at the concrete two-event mixed run. -/
theorem c1_failure_skips_persistence_response_kept_witness :
    (requestHandler true twoEventConn [] mixedHandler none id 123 false []
        (some "payload") none).storeFinal = [] ∧
    noWrites (requestHandler true twoEventConn [] mixedHandler none id 123
        false [] (some "payload") none).fgTrace = true ∧
    (requestHandler true twoEventConn [] mixedHandler none id 123 false []
        (some "payload") none).retValue = .ok (.obj [("text", "hi")]) :=
  c1_failure_skips_persistence_response_kept twoEventConn [] mixedHandler none
    id 123 false [] (some "payload") none (by decide) rfl rfl rfl

/-! ## Claim C8 — the initialization latch under concurrency -/

/-- Counterexample to C8 as stated: two requests admitted concurrently, both
reaching the `!this._initialized` check before the first `init()` resolves
(schedule: request 0 checks, request 1 checks, request 0 finishes, request 1
finishes).  The session store `init` is invoked twice, not exactly once: the
latch is only set after the suspension point, so it does not guard concurrent
first arrivals. -/
theorem c8_counterexample_double_init :
    (initRun (initWorld 2) [0, 1, 0, 1]).initCalls = 2 ∧
    ¬ (initRun (initWorld 2) [0, 1, 0, 1]).initCalls = 1 := by
  decide

/-- A step of any thread in an already initialized world changes neither the
latch nor the init call count. -/
theorem initStep_stable (w : InitWorld) (i : Nat) (h : w.initialized = true) :
    (initStep w i).initCalls = w.initCalls ∧
    (initStep w i).initialized = true := by
  simp only [initStep]
  rcases hg : w.threads.get? i with _ | ph
  · exact ⟨rfl, h⟩
  · cases ph
    · simp [h]
    · simp
    · exact ⟨rfl, h⟩

/-- Once the world is initialized, no schedule ever calls `init` again. -/
theorem initRun_stable : ∀ (l : List Nat) (w : InitWorld),
    w.initialized = true →
    (initRun w l).initCalls = w.initCalls ∧
    (initRun w l).initialized = true := by
  intro l
  induction l with
  | nil => intro w h; exact ⟨rfl, h⟩
  | cons i rest ih =>
      intro w h
      obtain ⟨h1, h2⟩ := initStep_stable w i h
      obtain ⟨g1, g2⟩ := ih (initStep w i) h2
      exact ⟨g1.trans h1, g2⟩

/-- C8 amended: the latch does make initialization happen exactly once for
sequential arrivals — whenever the first request completes `initSessionStore`
(check plus resume) before any other request reaches the check, `init` is
invoked exactly once over the whole remaining lifetime, whatever the later
schedule is; only requests interleaved before the first initialization
completes can add further `init` calls (see the counterexample). -/
theorem c8_init_once_when_first_completes (n : Nat) (rest : List Nat) :
    (initRun (initWorld (n + 1)) (0 :: 0 :: rest)).initCalls = 1 := by
  have e1 : initStep (initWorld (n + 1)) 0
      = InitWorld.mk false 1 (ThPhase.waiting :: List.replicate n .ready) := by
    simp [initStep, initWorld, List.replicate_succ]
  have e2 : initStep
      (InitWorld.mk false 1 (ThPhase.waiting :: List.replicate n .ready)) 0
      = InitWorld.mk true 1 (ThPhase.finished :: List.replicate n .ready) := by
    simp [initStep]
  have hrun : initRun (initWorld (n + 1)) (0 :: 0 :: rest)
      = initRun (initStep (initStep (initWorld (n + 1)) 0) 0) rest := rfl
  rw [hrun, e1, e2]
  exact (initRun_stable rest _ rfl).1
